import Mathlib

set_option maxRecDepth 8000

/- Shallow embedding of the response-construction and request-handling core
   of meyskens/code-annotation:
     src/server/serializer/serializers.go
     src/server/handler/experiments.go
   Go float32 arithmetic is modelled exactly: binary32 values are carried as
   rationals on the float grid, and every arithmetic step applies IEEE-754
   round-to-nearest-even (roundF32 below), matching Go float32 conversion,
   multiplication and division. -/

/-- Fuel-driven base-2 logarithm on naturals; `natLog2 n = log2fuel n n` is
the floor of log2 by structural recursion on the fuel. -/
def log2fuel : ℕ → ℕ → ℕ
  | 0, _ => 0
  | fuel+1, n => if n ≤ 1 then 0 else log2fuel fuel (n / 2) + 1

/-- Floor of the base-2 logarithm of a natural (0 on inputs 0 and 1). -/
def natLog2 (n : ℕ) : ℕ := log2fuel n n

/-- Round a rational to an integer, ties to even (IEEE-754 default mode). -/
def rhe (s : ℚ) : ℤ :=
  let f : ℤ := ⌊s⌋
  let r : ℚ := s - (f : ℚ)
  if r < 1/2 then f
  else if 1/2 < r then f + 1
  else if f % 2 = 0 then f else f + 1

/-- Binade exponent of a positive rational: the unique `e` with
`2^e ≤ q < 2^(e+1)`. -/
def findExp (q : ℚ) : ℤ :=
  if 1 ≤ q then (natLog2 ⌊q⌋.toNat : ℤ)
  else
    let k := natLog2 ⌊q⁻¹⌋.toNat
    if q * 2 ^ k = 1 then -(k : ℤ) else -(k : ℤ) - 1

/-- Round a nonnegative rational to the binary32 grid (unbounded above;
overflow to infinity is applied in `roundF32`). The exponent is clamped at
-126 so that subnormal values lose precision exactly as in IEEE-754. -/
def rndPos (q : ℚ) : ℚ :=
  let e : ℤ := max (findExp q) (-126)
  (rhe (q * 2 ^ ((23:ℤ) - e)) : ℚ) * 2 ^ (e - 23)

/-- Binary32 value: a finite rational on the float grid, an infinity or NaN.
Signed zero is not distinguished. -/
inductive F32 where
  | finite (val : ℚ)
  | inf
  | neginf
  | nan
deriving DecidableEq

/-- Round any rational to binary32: round to nearest, ties to even,
overflowing to an infinity at magnitude 2^128 as IEEE-754 prescribes. -/
def roundF32 (q : ℚ) : F32 :=
  if q < 0 then
    (if (2:ℚ)^(128:ℕ) ≤ rndPos (-q) then .neginf else .finite (-(rndPos (-q))))
  else
    (if (2:ℚ)^(128:ℕ) ≤ rndPos q then .inf else .finite (rndPos q))

/-- Go float32 multiplication (IEEE-754 binary32). -/
def f32mul : F32 → F32 → F32
  | .nan, _ => .nan
  | _, .nan => .nan
  | .finite a, .finite b => roundF32 (a * b)
  | .finite a, .inf => if a = 0 then .nan else if a < 0 then .neginf else .inf
  | .finite a, .neginf => if a = 0 then .nan else if a < 0 then .inf else .neginf
  | .inf, .finite b => if b = 0 then .nan else if b < 0 then .neginf else .inf
  | .neginf, .finite b => if b = 0 then .nan else if b < 0 then .inf else .neginf
  | .inf, .inf => .inf
  | .inf, .neginf => .neginf
  | .neginf, .inf => .neginf
  | .neginf, .neginf => .inf

/-- Go float32 division (IEEE-754 binary32; a zero quotient is returned as
plain zero since signed zero is not modelled). -/
def f32div : F32 → F32 → F32
  | .nan, _ => .nan
  | _, .nan => .nan
  | .finite a, .finite b =>
      if b = 0 then (if a = 0 then .nan else if a < 0 then .neginf else .inf)
      else roundF32 (a / b)
  | .finite _, .inf => .finite 0
  | .finite _, .neginf => .finite 0
  | .inf, .finite b => if b < 0 then .neginf else .inf
  | .neginf, .finite b => if b < 0 then .inf else .neginf
  | .inf, .inf => .nan
  | .inf, .neginf => .nan
  | .neginf, .inf => .nan
  | .neginf, .neginf => .nan

/-- Go conversion float32(n) of an integer. -/
def f32ofInt (n : ℤ) : F32 := roundF32 (n : ℚ)

/- ======================= serializer package ======================= -/

/-- Wire projection of one experiment (serializers.go, experimentResponse). -/
structure experimentResponse where
  ID : ℤ
  Name : String
  Description : String
  Progress : F32
deriving DecidableEq

/-- Closed sum of the payload shapes needed here; spec section 9 models the
Go interface-typed data field as a tagged union, and the experiment handlers
only ever attach these two shapes. -/
inductive Payload where
  | experiment (e : experimentResponse)
  | experiments (items : List experimentResponse)
deriving DecidableEq

/-- Typed HTTP error (serializers.go, httpError). -/
structure httpError where
  Status : ℕ
  Title : String
  Details : String
deriving DecidableEq

/-- Response envelope (serializers.go, Response). -/
structure Response where
  Status : ℕ
  Data : Option Payload
  Errors : List httpError
deriving DecidableEq

/-- Standard status text of the Go net/http package (StatusText), the
collaborator used by httpError.Error; unknown codes yield the empty
string. -/
def statusText : ℕ → String
  | 100 => "Continue"
  | 101 => "Switching Protocols"
  | 102 => "Processing"
  | 103 => "Early Hints"
  | 200 => "OK"
  | 201 => "Created"
  | 202 => "Accepted"
  | 203 => "Non-Authoritative Information"
  | 204 => "No Content"
  | 205 => "Reset Content"
  | 206 => "Partial Content"
  | 207 => "Multi-Status"
  | 208 => "Already Reported"
  | 226 => "IM Used"
  | 300 => "Multiple Choices"
  | 301 => "Moved Permanently"
  | 302 => "Found"
  | 303 => "See Other"
  | 304 => "Not Modified"
  | 305 => "Use Proxy"
  | 307 => "Temporary Redirect"
  | 308 => "Permanent Redirect"
  | 400 => "Bad Request"
  | 401 => "Unauthorized"
  | 402 => "Payment Required"
  | 403 => "Forbidden"
  | 404 => "Not Found"
  | 405 => "Method Not Allowed"
  | 406 => "Not Acceptable"
  | 407 => "Proxy Authentication Required"
  | 408 => "Request Timeout"
  | 409 => "Conflict"
  | 410 => "Gone"
  | 411 => "Length Required"
  | 412 => "Precondition Failed"
  | 413 => "Request Entity Too Large"
  | 414 => "Request URI Too Long"
  | 415 => "Unsupported Media Type"
  | 416 => "Requested Range Not Satisfiable"
  | 417 => "Expectation Failed"
  | 418 => "I\x27m a teapot"
  | 421 => "Misdirected Request"
  | 422 => "Unprocessable Entity"
  | 423 => "Locked"
  | 424 => "Failed Dependency"
  | 425 => "Too Early"
  | 426 => "Upgrade Required"
  | 428 => "Precondition Required"
  | 429 => "Too Many Requests"
  | 431 => "Request Header Fields Too Large"
  | 451 => "Unavailable For Legal Reasons"
  | 500 => "Internal Server Error"
  | 501 => "Not Implemented"
  | 502 => "Bad Gateway"
  | 503 => "Service Unavailable"
  | 504 => "Gateway Timeout"
  | 505 => "HTTP Version Not Supported"
  | 506 => "Variant Also Negotiates"
  | 507 => "Insufficient Storage"
  | 508 => "Loop Detected"
  | 510 => "Not Extended"
  | 511 => "Network Authentication Required"
  | _ => ""

/-- StatusCode method of httpError. -/
def httpError.StatusCode (e : httpError) : ℕ := e.Status

/-- Error method of httpError: the title, else the standard text of the
status, else the standard text for 500. -/
def httpError.Error (e : httpError) : String :=
  if e.Title ≠ "" then e.Title
  else if statusText e.Status ≠ "" then statusText e.Status
  else statusText 500

/-- NewHTTPError: joins the message parts with single spaces into the
title. -/
def NewHTTPError (statusCode : ℕ) (msg : List String) : httpError :=
  { Status := statusCode, Title := String.intercalate " " msg, Details := "" }

/-- Envelope builder newResponse: status 204 and no data for an absent
payload, status 200 with the payload attached otherwise. In Go the argument
is an interface value and absence is interface nil. -/
def newResponse (c : Option Payload) : Response :=
  match c with
  | none => { Status := 204, Data := none, Errors := [] }
  | some payload => { Status := 200, Data := some payload, Errors := [] }

/-- Experiment entity. Modelled from the spec: the model package is not in
src/; spec section 3 gives an Experiment an integer id, a name and a
description. -/
structure Experiment where
  ID : ℤ
  Name : String
  Description : String
deriving DecidableEq

/-- NewExperimentResponse projects an experiment and its progress into the
wire shape and delegates to newResponse. -/
def NewExperimentResponse (e : Experiment) (progress : F32) : Response :=
  newResponse (some (.experiment
    { ID := e.ID, Name := e.Name, Description := e.Description, Progress := progress }))

/-- NewExperimentsResponse projects a list of experiments with their
progresses; Go builds a slice of the experiments length reading progresses
by index (the handlers always supply equal lengths). The slice passed to
newResponse is non-nil even when empty, hence always `some`. -/
def NewExperimentsResponse (experiments : List Experiment) (progresses : List F32) : Response :=
  newResponse (some (.experiments (List.zipWith
    (fun e p => { ID := e.ID, Name := e.Name, Description := e.Description, Progress := p })
    experiments progresses)))

/- ======================= handler package ======================= -/

/-- Error value returned by a handler: either a typed httpError or a plain
Go error carrying only a message. -/
inductive HandlerErr where
  | http (e : httpError)
  | generic (msg : String)
deriving DecidableEq

/-- Modelled from the spec: the out-of-scope dispatcher renders a typed
error with its own status code and any plain error as Internal, status 500
(spec sections 6 and 7). -/
def errStatus : HandlerErr → ℕ
  | .http e => e.StatusCode
  | .generic _ => 500

/-- Repository operation tags recording which persistence calls a handler
performed, in order. -/
inductive Effect where
  | getByID
  | getAll
  | create
  | update
  | countUser
  | countComplete
deriving DecidableEq

/-- Experiments repository interface (spec section 6); faults are plain
error messages. -/
structure ExperimentsRepo where
  GetByID : ℤ → Except String (Option Experiment)
  GetAll : Except String (List Experiment)
  Create : Experiment → Except String Unit
  Update : Experiment → Except String Unit

/-- Assignments repository interface (spec section 6). -/
structure AssignmentsRepo where
  CountUserAssignment : ℤ → ℤ → Except String ℤ
  CountCompleteUserAssignment : ℤ → ℤ → Except String ℤ

/-- Inbound request as the handlers consume it: the outcome of the identity
collaborator GetUserID, of the urlParamInt collaborator for the
experimentId path segment (both modelled from the spec, sections 4.2 and 6,
as their packages are not in src/), and of reading the body. -/
structure Request where
  userID : Except HandlerErr ℤ
  experimentIdParam : Except HandlerErr ℤ
  body : Except String String

/-- Request body shape for create and update (createExperimentReq and
updateExperimentReq in experiments.go, both a name and a description). -/
structure ExperimentReq where
  Name : String
  Description : String

/-- experimentProgress (experiments.go lines 74-90): count all and completed
assignments for (experiment, user), wrap either fault with contextual text,
guard countAll == 0, else 100 * countComplete / countAll in float32. The
second component records the repository calls performed. -/
def experimentProgress (repo : AssignmentsRepo) (experimentID userID : ℤ) :
    Except String F32 × List Effect :=
  match repo.CountUserAssignment experimentID userID with
  | .error err => (.error ("Error count of assigments from the DB: " ++ err), [.countUser])
  | .ok countAll =>
    match repo.CountCompleteUserAssignment experimentID userID with
    | .error err => (.error ("Error count of complete assigments from the DB: " ++ err),
        [.countUser, .countComplete])
    | .ok countComplete =>
      if countAll = 0 then (.ok (.finite 0), [.countUser, .countComplete])
      else (.ok (f32div (f32mul (.finite 100) (f32ofInt countComplete)) (f32ofInt countAll)),
        [.countUser, .countComplete])

/-- Per-experiment progress loop of GetExperiments, in list order, aborting
on the first fault. -/
def progressList (arepo : AssignmentsRepo) (userID : ℤ) :
    List Experiment → Except String (List F32) × List Effect
  | [] => (.ok [], [])
  | e :: rest =>
    match experimentProgress arepo e.ID userID with
    | (.error err, effs) => (.error err, effs)
    | (.ok p, effs) =>
      match progressList arepo userID rest with
      | (.error err, effs2) => (.error err, effs ++ effs2)
      | (.ok ps, effs2) => (.ok (p :: ps), effs ++ effs2)

/-- GetExperimentDetails (experiments.go lines 17-45). -/
def GetExperimentDetails (repo : ExperimentsRepo) (assignmentsRepo : AssignmentsRepo)
    (r : Request) : Except HandlerErr Response × List Effect :=
  match r.userID with
  | .error err => (.error err, [])
  | .ok userID =>
    match r.experimentIdParam with
    | .error err => (.error err, [])
    | .ok experimentID =>
      match repo.GetByID experimentID with
      | .error err => (.error (.generic err), [.getByID])
      | .ok none => (.error (.http (NewHTTPError 404 ["no experiment found"])), [.getByID])
      | .ok (some experiment) =>
        match experimentProgress assignmentsRepo experiment.ID userID with
        | (.error err, effs) => (.error (.generic err), .getByID :: effs)
        | (.ok progress, effs) =>
          (.ok (NewExperimentResponse experiment progress), .getByID :: effs)

/-- GetExperiments (experiments.go lines 49-72). -/
def GetExperiments (repo : ExperimentsRepo) (assignmentsRepo : AssignmentsRepo)
    (r : Request) : Except HandlerErr Response × List Effect :=
  match r.userID with
  | .error err => (.error err, [])
  | .ok userID =>
    match repo.GetAll with
    | .error err => (.error (.generic err), [.getAll])
    | .ok experiments =>
      match progressList assignmentsRepo userID experiments with
      | (.error err, effs) => (.error (.generic err), .getAll :: effs)
      | (.ok progresses, effs) =>
        (.ok (NewExperimentsResponse experiments progresses), .getAll :: effs)

/-- CreateExperiment (experiments.go lines 98-123): reads and parses the
body, persists, returns the created entity with progress 0. Note it never
calls the identity collaborator. The JSON decoder json.Unmarshal is the
collaborator `parse`; a read fault or a parse fault each produce a 400. -/
def CreateExperiment (repo : ExperimentsRepo) (parse : String → Except String ExperimentReq)
    (r : Request) : Except HandlerErr Response × List Effect :=
  match r.body with
  | .error err => (.error (.http (NewHTTPError 400 [err])), [])
  | .ok body =>
    match parse body with
    | .error err => (.error (.http (NewHTTPError 400 [err])), [])
    | .ok req =>
      let experiment : Experiment := { ID := 0, Name := req.Name, Description := req.Description }
      match repo.Create experiment with
      | .error err => (.error (.generic err), [.create])
      | .ok _ => (.ok (NewExperimentResponse experiment (.finite 0)), [.create])

/-- UpdateExperiment (experiments.go lines 131-177). -/
def UpdateExperiment (repo : ExperimentsRepo) (assignmentsRepo : AssignmentsRepo)
    (parse : String → Except String ExperimentReq) (r : Request) :
    Except HandlerErr Response × List Effect :=
  match r.userID with
  | .error err => (.error err, [])
  | .ok userID =>
    match r.experimentIdParam with
    | .error err => (.error err, [])
    | .ok experimentID =>
      match repo.GetByID experimentID with
      | .error err => (.error (.generic err), [.getByID])
      | .ok none => (.error (.http (NewHTTPError 404 ["no experiment found"])), [.getByID])
      | .ok (some experiment) =>
        match r.body with
        | .error err => (.error (.http (NewHTTPError 400 [err])), [.getByID])
        | .ok body =>
          match parse body with
          | .error err => (.error (.http (NewHTTPError 400 [err])), [.getByID])
          | .ok req =>
            let experiment2 : Experiment :=
              { experiment with Name := req.Name, Description := req.Description }
            match repo.Update experiment2 with
            | .error err => (.error (.generic err), [.getByID, .update])
            | .ok _ =>
              match experimentProgress assignmentsRepo experiment2.ID userID with
              | (.error err, effs) => (.error (.generic err), [.getByID, .update] ++ effs)
              | (.ok progress, effs) =>
                (.ok (NewExperimentResponse experiment2 progress), [.getByID, .update] ++ effs)

/- ======================= numeric layer: lemmas ======================= -/

theorem log2fuel_spec : ∀ (fuel n : ℕ), 1 ≤ n → n ≤ fuel →
    2 ^ log2fuel fuel n ≤ n ∧ n < 2 ^ (log2fuel fuel n + 1)
  | 0, n, h1, h2 => by omega
  | fuel+1, n, h1, h2 => by
    by_cases hn : n ≤ 1
    · have hn1 : n = 1 := by omega
      subst hn1
      simp [log2fuel]
    · have hrec := log2fuel_spec fuel (n / 2) (by omega) (by omega)
      simp only [log2fuel, if_neg hn]
      have e1 : 2 ^ (log2fuel fuel (n / 2) + 1) = 2 * 2 ^ log2fuel fuel (n / 2) := by ring
      have e2 : 2 ^ (log2fuel fuel (n / 2) + 1 + 1) = 4 * 2 ^ log2fuel fuel (n / 2) := by ring
      omega

theorem natLog2_spec (n : ℕ) (h : 1 ≤ n) :
    2 ^ natLog2 n ≤ n ∧ n < 2 ^ (natLog2 n + 1) :=
  log2fuel_spec n n h le_rfl

theorem findExp_spec {q : ℚ} (hq : 0 < q) :
    (2:ℚ) ^ findExp q ≤ q ∧ q < 2 ^ (findExp q + 1) := by
  by_cases h1 : 1 ≤ q
  · have hfl : 1 ≤ ⌊q⌋ := Int.le_floor.mpr (by exact_mod_cast h1)
    set m : ℕ := ⌊q⌋.toNat with hmdef
    have hm : (m : ℤ) = ⌊q⌋ := Int.toNat_of_nonneg (by omega)
    have hm1 : 1 ≤ m := by omega
    obtain ⟨hs1, hs2⟩ := natLog2_spec m hm1
    set L : ℕ := natLog2 m with hLdef
    have key1 : (2:ℚ) ^ (L:ℤ) ≤ q := by
      calc (2:ℚ) ^ (L:ℤ) = (2:ℚ) ^ L := zpow_natCast 2 L
        _ ≤ (m : ℚ) := by exact_mod_cast hs1
        _ = ((⌊q⌋ : ℤ) : ℚ) := by exact_mod_cast hm
        _ ≤ q := Int.floor_le q
    have key2 : q < (2:ℚ) ^ ((L:ℤ) + 1) := by
      have hz : (⌊q⌋ : ℤ) + 1 ≤ ((2 ^ (L+1) : ℕ) : ℤ) := by omega
      calc q < ((⌊q⌋ : ℤ) : ℚ) + 1 := Int.lt_floor_add_one q
        _ ≤ (((2 ^ (L+1) : ℕ) : ℤ) : ℚ) := by exact_mod_cast hz
        _ = (2:ℚ) ^ ((L:ℤ) + 1) := by
            push_cast
            rw [show ((L:ℤ) + 1) = (((L + 1 : ℕ)) : ℤ) by push_cast; ring, zpow_natCast]
    unfold findExp
    rw [if_pos h1, ← hmdef, ← hLdef]
    exact ⟨key1, key2⟩
  · have hq1 : q < 1 := lt_of_not_le h1
    have hp : 1 < q⁻¹ := one_lt_inv_iff₀.mpr ⟨hq, hq1⟩
    have hppos : 0 < q⁻¹ := by positivity
    have hfl : 1 ≤ ⌊q⁻¹⌋ := Int.le_floor.mpr (by exact_mod_cast hp.le)
    set m : ℕ := ⌊q⁻¹⌋.toNat with hmdef
    have hm : (m : ℤ) = ⌊q⁻¹⌋ := Int.toNat_of_nonneg (by omega)
    have hm1 : 1 ≤ m := by omega
    obtain ⟨hs1, hs2⟩ := natLog2_spec m hm1
    set k : ℕ := natLog2 m with hkdef
    have keyA : (2:ℚ) ^ (k:ℤ) ≤ q⁻¹ := by
      calc (2:ℚ) ^ (k:ℤ) = (2:ℚ) ^ k := zpow_natCast 2 k
        _ ≤ (m : ℚ) := by exact_mod_cast hs1
        _ = ((⌊q⁻¹⌋ : ℤ) : ℚ) := by exact_mod_cast hm
        _ ≤ q⁻¹ := Int.floor_le _
    have keyB : q⁻¹ < (2:ℚ) ^ ((k:ℤ) + 1) := by
      have hz : (⌊q⁻¹⌋ : ℤ) + 1 ≤ ((2 ^ (k+1) : ℕ) : ℤ) := by omega
      calc q⁻¹ < ((⌊q⁻¹⌋ : ℤ) : ℚ) + 1 := Int.lt_floor_add_one _
        _ ≤ (((2 ^ (k+1) : ℕ) : ℤ) : ℚ) := by exact_mod_cast hz
        _ = (2:ℚ) ^ ((k:ℤ) + 1) := by
            push_cast
            rw [show ((k:ℤ) + 1) = (((k + 1 : ℕ)) : ℤ) by push_cast; ring, zpow_natCast]
    have qB : q ≤ (2:ℚ) ^ (-(k:ℤ)) := by
      have h2 : q⁻¹⁻¹ ≤ ((2:ℚ) ^ (k:ℤ))⁻¹ := inv_anti₀ (by positivity) keyA
      rw [inv_inv] at h2
      rw [zpow_neg]
      exact h2
    have qA : (2:ℚ) ^ (-(k:ℤ) - 1) < q := by
      have h2 : ((2:ℚ) ^ ((k:ℤ) + 1))⁻¹ < q⁻¹⁻¹ := inv_strictAnti₀ hppos keyB
      rw [inv_inv] at h2
      calc (2:ℚ) ^ (-(k:ℤ) - 1) = ((2:ℚ) ^ ((k:ℤ) + 1))⁻¹ := by
            rw [← zpow_neg]
            congr 1
            ring
        _ < q := h2
    unfold findExp
    rw [if_neg h1, ← hmdef, ← hkdef]
    by_cases heq : q * 2 ^ k = 1
    · rw [if_pos heq]
      have hqeq : q = ((2:ℚ) ^ (k:ℕ))⁻¹ := eq_inv_of_mul_eq_one_left heq
      have hq2 : q = (2:ℚ) ^ (-(k:ℤ)) := by
        rw [hqeq, ← zpow_natCast (2:ℚ) k, ← zpow_neg]
      constructor
      · rw [hq2]
      · rw [hq2]
        exact zpow_lt_zpow_right₀ one_lt_two (by omega)
    · rw [if_neg heq]
      constructor
      · exact qA.le
      · have hne : q ≠ (2:ℚ) ^ (-(k:ℤ)) := by
          intro hcon
          apply heq
          rw [hcon, ← zpow_natCast (2:ℚ) k, ← zpow_add₀ (by norm_num : (2:ℚ) ≠ 0)]
          norm_num
        have : q < (2:ℚ) ^ (-(k:ℤ)) := lt_of_le_of_ne qB hne
        rw [show (-(k:ℤ) - 1 + 1) = -(k:ℤ) by ring]
        exact this

theorem findExp_unique {q : ℚ} {E : ℤ} (h1 : (2:ℚ)^E ≤ q) (h2 : q < 2^(E+1)) :
    findExp q = E := by
  have hq : 0 < q := lt_of_lt_of_le (zpow_pos two_pos E) h1
  obtain ⟨hs1, hs2⟩ := findExp_spec hq
  by_contra hne
  rcases lt_or_gt_of_ne hne with h | h
  · exact absurd (lt_of_lt_of_le (lt_of_lt_of_le hs2
      (zpow_le_zpow_right₀ one_le_two (by omega))) h1) (lt_irrefl q)
  · exact absurd (lt_of_lt_of_le (lt_of_lt_of_le h2
      (zpow_le_zpow_right₀ one_le_two (by omega))) hs1) (lt_irrefl q)

theorem rhe_def (s : ℚ) : rhe s =
    if s - (⌊s⌋ : ℚ) < 1/2 then ⌊s⌋
    else if 1/2 < s - (⌊s⌋ : ℚ) then ⌊s⌋ + 1
    else if ⌊s⌋ % 2 = 0 then ⌊s⌋ else ⌊s⌋ + 1 := rfl

theorem rhe_intCast (n : ℤ) : rhe (n : ℚ) = n := by
  rw [rhe_def]
  simp

theorem rhe_cases (s : ℚ) : rhe s = ⌊s⌋ ∨ rhe s = ⌊s⌋ + 1 := by
  rw [rhe_def]
  split_ifs <;> simp

theorem le_rhe {n : ℤ} {s : ℚ} (h : (n:ℚ) ≤ s) : n ≤ rhe s := by
  have hfl : n ≤ ⌊s⌋ := Int.le_floor.mpr h
  rcases rhe_cases s with h2 | h2 <;> omega

theorem rhe_le {n : ℤ} {s : ℚ} (h : s < (n:ℚ)) : rhe s ≤ n := by
  have hfl : ⌊s⌋ < n := Int.floor_lt.mpr h
  rcases rhe_cases s with h2 | h2 <;> omega

theorem rhe_mono {s t : ℚ} (h : s ≤ t) : rhe s ≤ rhe t := by
  rcases lt_or_eq_of_le (Int.floor_le_floor h) with hf | hf
  · rcases rhe_cases s with h1 | h1 <;> rcases rhe_cases t with h2 | h2 <;> omega
  · rw [rhe_def, rhe_def, ← hf]
    split_ifs <;> first | omega | (exfalso; linarith)

theorem rndPos_def2 (q : ℚ) : rndPos q =
    (rhe (q * 2 ^ ((23:ℤ) - max (findExp q) (-126))) : ℚ) *
      2 ^ (max (findExp q) (-126) - 23) := rfl

theorem rndPos_zero : rndPos 0 = 0 := by
  rw [rndPos_def2, zero_mul, show ((0:ℚ)) = ((0:ℤ):ℚ) by norm_num, rhe_intCast]
  norm_num

theorem rndPos_eval {q : ℚ} {E : ℤ} (h1 : (2:ℚ)^E ≤ q) (h2 : q < 2^(E+1)) (hE : -126 ≤ E) :
    rndPos q = (rhe (q * 2 ^ ((23:ℤ) - E)) : ℚ) * 2 ^ (E - 23) := by
  rw [rndPos_def2, findExp_unique h1 h2, max_eq_left hE]

theorem scaled_lt {q : ℚ} (hq : 0 < q) :
    q * 2 ^ ((23:ℤ) - max (findExp q) (-126)) < 2 ^ (24:ℤ) := by
  obtain ⟨_, hs2⟩ := findExp_spec hq
  have hle : findExp q + 1 ≤ max (findExp q) (-126) + 1 :=
    add_le_add_right (le_max_left _ _) 1
  have hq2 : q < 2 ^ (max (findExp q) (-126) + 1) :=
    lt_of_lt_of_le hs2 (zpow_le_zpow_right₀ one_le_two hle)
  calc q * 2 ^ ((23:ℤ) - max (findExp q) (-126))
      < 2 ^ (max (findExp q) (-126) + 1) * 2 ^ ((23:ℤ) - max (findExp q) (-126)) :=
        mul_lt_mul_of_pos_right hq2 (zpow_pos (by norm_num) _)
    _ = 2 ^ (24:ℤ) := by
        rw [← zpow_add₀ (by norm_num : (2:ℚ) ≠ 0)]
        congr 1
        ring

theorem rndPos_le_pow {q : ℚ} (hq : 0 < q) :
    rndPos q ≤ 2 ^ (max (findExp q) (-126) + 1) := by
  rw [rndPos_def2]
  have hsc : q * 2 ^ ((23:ℤ) - max (findExp q) (-126)) < ((16777216:ℤ):ℚ) := by
    have h24 : ((2:ℚ)) ^ (24:ℤ) = ((16777216:ℤ):ℚ) := by norm_num
    rw [← h24]
    exact scaled_lt hq
  have hr : rhe (q * 2 ^ ((23:ℤ) - max (findExp q) (-126))) ≤ 16777216 := rhe_le hsc
  calc (rhe (q * 2 ^ ((23:ℤ) - max (findExp q) (-126))) : ℚ) *
        2 ^ (max (findExp q) (-126) - 23)
      ≤ ((16777216:ℤ):ℚ) * 2 ^ (max (findExp q) (-126) - 23) :=
        mul_le_mul_of_nonneg_right (by exact_mod_cast hr) (zpow_pos (by norm_num) _).le
    _ = 2 ^ (max (findExp q) (-126) + 1) := by
        rw [show ((16777216:ℤ):ℚ) = (2:ℚ) ^ (24:ℤ) by norm_num,
          ← zpow_add₀ (by norm_num : (2:ℚ) ≠ 0)]
        congr 1
        ring

theorem rndPos_nonneg {q : ℚ} (h : 0 ≤ q) : 0 ≤ rndPos q := by
  rcases eq_or_lt_of_le h with h0 | h0
  · rw [← h0, rndPos_zero]
  · rw [rndPos_def2]
    have hsc : ((0:ℤ):ℚ) ≤ q * 2 ^ ((23:ℤ) - max (findExp q) (-126)) := by positivity
    have hr : (0:ℤ) ≤ rhe (q * 2 ^ ((23:ℤ) - max (findExp q) (-126))) := le_rhe hsc
    exact mul_nonneg (by exact_mod_cast hr) (zpow_pos (by norm_num : (0:ℚ) < 2) _).le

theorem rndPos_ge_pow {q : ℚ} (hq : 0 < q) (hcl : -126 ≤ findExp q) :
    (2:ℚ) ^ findExp q ≤ rndPos q := by
  rw [rndPos_def2, max_eq_left hcl]
  obtain ⟨hs1, _⟩ := findExp_spec hq
  have hsc : ((8388608:ℤ):ℚ) ≤ q * 2 ^ ((23:ℤ) - findExp q) := by
    have h23 : ((8388608:ℤ):ℚ) = (2:ℚ) ^ (23:ℤ) := by norm_num
    rw [h23]
    calc (2:ℚ) ^ (23:ℤ) = 2 ^ findExp q * 2 ^ ((23:ℤ) - findExp q) := by
          rw [← zpow_add₀ (by norm_num : (2:ℚ) ≠ 0)]
          congr 1
          ring
      _ ≤ q * 2 ^ ((23:ℤ) - findExp q) :=
          mul_le_mul_of_nonneg_right hs1 (zpow_pos (by norm_num) _).le
  have hr : (8388608:ℤ) ≤ rhe (q * 2 ^ ((23:ℤ) - findExp q)) := le_rhe hsc
  calc (2:ℚ) ^ findExp q = ((8388608:ℤ):ℚ) * 2 ^ (findExp q - 23) := by
        rw [show ((8388608:ℤ):ℚ) = (2:ℚ) ^ (23:ℤ) by norm_num,
          ← zpow_add₀ (by norm_num : (2:ℚ) ≠ 0)]
        congr 1
        ring
    _ ≤ (rhe (q * 2 ^ ((23:ℤ) - findExp q)) : ℚ) * 2 ^ (findExp q - 23) :=
        mul_le_mul_of_nonneg_right (by exact_mod_cast hr) (zpow_pos (by norm_num) _).le

theorem rndPos_mono {q r : ℚ} (h0 : 0 ≤ q) (h : q ≤ r) : rndPos q ≤ rndPos r := by
  rcases eq_or_lt_of_le h0 with hq0 | hq0
  · rw [← hq0, rndPos_zero]
    exact rndPos_nonneg (le_trans h0 h)
  · have hr0 : 0 < r := lt_of_lt_of_le hq0 h
    have hee : findExp q ≤ findExp r := by
      obtain ⟨a1, _⟩ := findExp_spec hq0
      obtain ⟨_, b2⟩ := findExp_spec hr0
      have hlt : (2:ℚ) ^ findExp q < 2 ^ (findExp r + 1) := lt_of_le_of_lt (le_trans a1 h) b2
      have := (zpow_lt_zpow_iff_right₀ one_lt_two).mp hlt
      omega
    have hef : max (findExp q) (-126) ≤ max (findExp r) (-126) := max_le_max hee le_rfl
    rcases eq_or_lt_of_le hef with heq | hlt
    · rw [rndPos_def2, rndPos_def2, ← heq]
      have hsc : q * 2 ^ ((23:ℤ) - max (findExp q) (-126)) ≤
          r * 2 ^ ((23:ℤ) - max (findExp q) (-126)) :=
        mul_le_mul_of_nonneg_right h (zpow_pos (by norm_num) _).le
      exact mul_le_mul_of_nonneg_right (by exact_mod_cast rhe_mono hsc)
        (zpow_pos (by norm_num) _).le
    · have hub : rndPos q ≤ 2 ^ (max (findExp q) (-126) + 1) := rndPos_le_pow hq0
      have hcl : -126 ≤ findExp r := by
        by_contra hc
        push_neg at hc
        rw [max_eq_right (by omega : findExp r ≤ -126)] at hlt
        have := le_max_right (findExp q) (-126)
        omega
      have hmax : max (findExp r) (-126) = findExp r := max_eq_left hcl
      have hlb : (2:ℚ) ^ findExp r ≤ rndPos r := rndPos_ge_pow hr0 hcl
      calc rndPos q ≤ 2 ^ (max (findExp q) (-126) + 1) := hub
        _ ≤ 2 ^ findExp r := by
            apply zpow_le_zpow_right₀ one_le_two
            rw [hmax] at hlt
            omega
        _ ≤ rndPos r := hlb

theorem rndPos_lt_top {q : ℚ} (h0 : 0 ≤ q) (h : q < 2 ^ (127:ℤ)) :
    rndPos q < 2 ^ (128:ℤ) := by
  rcases eq_or_lt_of_le h0 with hq0 | hq0
  · rw [← hq0, rndPos_zero]
    positivity
  · have hfE : findExp q ≤ 126 := by
      obtain ⟨a1, _⟩ := findExp_spec hq0
      have hlt : (2:ℚ) ^ findExp q < 2 ^ (127:ℤ) := lt_of_le_of_lt a1 h
      have := (zpow_lt_zpow_iff_right₀ one_lt_two).mp hlt
      omega
    calc rndPos q ≤ 2 ^ (max (findExp q) (-126) + 1) := rndPos_le_pow hq0
      _ ≤ 2 ^ (127:ℤ) := by
          apply zpow_le_zpow_right₀ one_le_two
          have := max_le hfE (by norm_num : (-126:ℤ) ≤ 126)
          omega
      _ < 2 ^ (128:ℤ) := zpow_lt_zpow_right₀ one_lt_two (by omega)

theorem rndPos_le_pow2 {q : ℚ} {E : ℤ} (h0 : 0 ≤ q) (h : q < 2 ^ E) (hE : -125 ≤ E) :
    rndPos q ≤ 2 ^ E := by
  rcases eq_or_lt_of_le h0 with hq0 | hq0
  · rw [← hq0, rndPos_zero]
    positivity
  · have hfE : findExp q ≤ E - 1 := by
      obtain ⟨a1, _⟩ := findExp_spec hq0
      have hlt : (2:ℚ) ^ findExp q < 2 ^ E := lt_of_le_of_lt a1 h
      have := (zpow_lt_zpow_iff_right₀ one_lt_two).mp hlt
      omega
    calc rndPos q ≤ 2 ^ (max (findExp q) (-126) + 1) := rndPos_le_pow hq0
      _ ≤ 2 ^ E := by
          apply zpow_le_zpow_right₀ one_le_two
          have := max_le hfE (by omega : (-126:ℤ) ≤ E - 1)
          omega

theorem rndPos_ge_one {q : ℚ} (h : 1 ≤ q) : 1 ≤ rndPos q := by
  have hq0 : 0 < q := lt_of_lt_of_le one_pos h
  have hf0 : 0 ≤ findExp q := by
    obtain ⟨_, hs2⟩ := findExp_spec hq0
    have h1 : (2:ℚ) ^ (0:ℤ) ≤ q := by simpa using h
    have hlt : (2:ℚ) ^ (0:ℤ) < 2 ^ (findExp q + 1) := lt_of_le_of_lt h1 hs2
    have := (zpow_lt_zpow_iff_right₀ one_lt_two).mp hlt
    omega
  calc (1:ℚ) = 2 ^ (0:ℤ) := by norm_num
    _ ≤ 2 ^ findExp q := zpow_le_zpow_right₀ one_le_two hf0
    _ ≤ rndPos q := rndPos_ge_pow hq0 (by omega)

theorem rndPos_exact {m : ℕ} (k : ℕ) (h1 : 1 ≤ m) (h2 : m < 2 ^ 24) :
    rndPos ((m : ℚ) * 2 ^ k) = (m : ℚ) * 2 ^ k := by
  obtain ⟨hs1, hs2⟩ := natLog2_spec m h1
  set L : ℕ := natLog2 m with hL
  have hL23 : L ≤ 23 := by
    by_contra hc
    push_neg at hc
    have h24 : (2:ℕ) ^ 24 ≤ 2 ^ L := Nat.pow_le_pow_right (by norm_num) (by omega)
    omega
  have hfe : findExp ((m:ℚ) * 2 ^ k) = (L:ℤ) + (k:ℤ) := by
    apply findExp_unique
    · calc (2:ℚ) ^ ((L:ℤ) + (k:ℤ)) = (2:ℚ) ^ (L:ℤ) * (2:ℚ) ^ (k:ℤ) :=
            zpow_add₀ (by norm_num) _ _
        _ = ((2 ^ L : ℕ) : ℚ) * 2 ^ k := by
            rw [zpow_natCast, zpow_natCast]
            push_cast
            ring
        _ ≤ (m : ℚ) * 2 ^ k :=
            mul_le_mul_of_nonneg_right (by exact_mod_cast hs1) (by positivity)
    · calc (m:ℚ) * 2 ^ k < ((2 ^ (L+1) : ℕ) : ℚ) * 2 ^ k :=
            mul_lt_mul_of_pos_right (by exact_mod_cast hs2) (by positivity)
        _ = 2 ^ ((L:ℤ) + (k:ℤ) + 1) := by
            push_cast
            rw [← zpow_natCast (2:ℚ) (L+1), ← zpow_natCast (2:ℚ) k,
              ← zpow_add₀ (by norm_num : (2:ℚ) ≠ 0)]
            congr 1
            push_cast
            ring
  rw [rndPos_def2, hfe, max_eq_left (by omega)]
  have hsc : ((m:ℚ) * 2 ^ k) * 2 ^ ((23:ℤ) - ((L:ℤ) + (k:ℤ))) =
      (((m * 2 ^ (23 - L) : ℕ) : ℤ) : ℚ) := by
    push_cast
    rw [← zpow_natCast (2:ℚ) k, ← zpow_natCast (2:ℚ) (23 - L), mul_assoc,
      ← zpow_add₀ (by norm_num : (2:ℚ) ≠ 0)]
    congr 2
    omega
  rw [hsc, rhe_intCast]
  push_cast
  rw [← zpow_natCast (2:ℚ) (23 - L), ← zpow_natCast (2:ℚ) k, mul_assoc,
    ← zpow_add₀ (by norm_num : (2:ℚ) ≠ 0)]
  congr 2
  omega

theorem roundF32_eq_finite {q : ℚ} (h0 : 0 ≤ q) (hlt : rndPos q < 2 ^ (128:ℤ)) :
    roundF32 q = .finite (rndPos q) := by
  have hcond : ¬ ((2:ℚ) ^ (128:ℕ) ≤ rndPos q) := by
    push_neg
    calc rndPos q < 2 ^ (128:ℤ) := hlt
      _ = (2:ℚ) ^ (128:ℕ) := by norm_num
  unfold roundF32
  rw [if_neg (not_lt.mpr h0), if_neg hcond]

/-- Exact rational value of the float32 computation 100 * c / a performed by
experimentProgress when countAll is nonzero, with the three IEEE-754
roundings (conversion of c, multiplication, division) explicit; the
conversion of a is rounded inside as well. -/
def progressGrid (countAll countComplete : ℤ) : ℚ :=
  rndPos (rndPos (100 * rndPos (countComplete : ℚ)) / rndPos (countAll : ℚ))

theorem f32_progress_eq (a c : ℤ) (ha : 1 ≤ a) (hc : 0 ≤ c) (hca : c ≤ a)
    (hbound : a < 2 ^ 63) :
    f32div (f32mul (.finite 100) (f32ofInt c)) (f32ofInt a) =
      .finite (progressGrid a c) := by
  have haq : (1:ℚ) ≤ (a:ℚ) := by exact_mod_cast ha
  have hcq : (0:ℚ) ≤ (c:ℚ) := by exact_mod_cast hc
  have haq63 : (a:ℚ) < 2 ^ (63:ℤ) := by
    rw [show ((2:ℚ) ^ (63:ℤ)) = (((2^63 : ℤ)):ℚ) by norm_num]
    exact_mod_cast hbound
  have hcq63 : (c:ℚ) < 2 ^ (63:ℤ) := lt_of_le_of_lt (by exact_mod_cast hca) haq63
  have hCle : rndPos (c:ℚ) ≤ 2 ^ (63:ℤ) := rndPos_le_pow2 hcq hcq63 (by omega)
  have hC0 : 0 ≤ rndPos (c:ℚ) := rndPos_nonneg hcq
  have hCfin : f32ofInt c = .finite (rndPos (c:ℚ)) := by
    unfold f32ofInt
    exact roundF32_eq_finite hcq
      (lt_of_le_of_lt hCle (zpow_lt_zpow_right₀ one_lt_two (by omega)))
  have hA1 : (1:ℚ) ≤ rndPos (a:ℚ) := rndPos_ge_one haq
  have hA0 : (0:ℚ) < rndPos (a:ℚ) := lt_of_lt_of_le one_pos hA1
  have hAfin : f32ofInt a = .finite (rndPos (a:ℚ)) := by
    unfold f32ofInt
    exact roundF32_eq_finite (le_trans zero_le_one haq)
      (lt_of_le_of_lt (rndPos_le_pow2 (le_trans zero_le_one haq) haq63 (by omega))
        (zpow_lt_zpow_right₀ one_lt_two (by omega)))
  have hM70 : 100 * rndPos (c:ℚ) < 2 ^ (70:ℤ) := by
    calc 100 * rndPos (c:ℚ) ≤ 100 * 2 ^ (63:ℤ) := by linarith
      _ < 2 ^ (70:ℤ) := by norm_num
  have hM0 : 0 ≤ rndPos (100 * rndPos (c:ℚ)) := rndPos_nonneg (by positivity)
  have hMle : rndPos (100 * rndPos (c:ℚ)) ≤ 2 ^ (70:ℤ) :=
    rndPos_le_pow2 (by positivity) hM70 (by omega)
  have hMfin : f32mul (.finite 100) (.finite (rndPos (c:ℚ))) =
      .finite (rndPos (100 * rndPos (c:ℚ))) := by
    show roundF32 (100 * rndPos (c:ℚ)) = _
    exact roundF32_eq_finite (by positivity)
      (lt_of_le_of_lt hMle (zpow_lt_zpow_right₀ one_lt_two (by omega)))
  have hQ127 : rndPos (100 * rndPos (c:ℚ)) / rndPos (a:ℚ) < 2 ^ (127:ℤ) := by
    calc rndPos (100 * rndPos (c:ℚ)) / rndPos (a:ℚ) ≤ rndPos (100 * rndPos (c:ℚ)) :=
          div_le_self hM0 hA1
      _ ≤ 2 ^ (70:ℤ) := hMle
      _ < 2 ^ (127:ℤ) := zpow_lt_zpow_right₀ one_lt_two (by omega)
  rw [hCfin, hAfin, hMfin]
  show (if rndPos (a:ℚ) = 0 then _ else roundF32 _) = _
  rw [if_neg (ne_of_gt hA0)]
  exact roundF32_eq_finite (div_nonneg hM0 hA0.le)
    (lt_of_le_of_lt (rndPos_le_pow2 (div_nonneg hM0 hA0.le) hQ127 (by omega))
      (zpow_lt_zpow_right₀ one_lt_two (by omega)))

theorem progressGrid_mono (a c c' : ℤ) (ha : 1 ≤ a) (hc : 0 ≤ c) (hcc : c ≤ c') :
    progressGrid a c ≤ progressGrid a c' := by
  unfold progressGrid
  have hC : rndPos (c:ℚ) ≤ rndPos (c':ℚ) :=
    rndPos_mono (by exact_mod_cast hc) (by exact_mod_cast hcc)
  have hC0 : 0 ≤ rndPos (c:ℚ) := rndPos_nonneg (by exact_mod_cast hc)
  have hM : rndPos (100 * rndPos (c:ℚ)) ≤ rndPos (100 * rndPos (c':ℚ)) :=
    rndPos_mono (by positivity) (by linarith)
  have hM0 : 0 ≤ rndPos (100 * rndPos (c:ℚ)) := rndPos_nonneg (by positivity)
  have hA1 : (1:ℚ) ≤ rndPos (a:ℚ) := rndPos_ge_one (by exact_mod_cast ha)
  have hA0 : (0:ℚ) < rndPos (a:ℚ) := lt_of_lt_of_le one_pos hA1
  have hdiv : rndPos (100 * rndPos (c:ℚ)) / rndPos (a:ℚ) ≤
      rndPos (100 * rndPos (c':ℚ)) / rndPos (a:ℚ) := by gcongr
  exact rndPos_mono (div_nonneg hM0 hA0.le) hdiv

theorem repr_of_repr100 {A m k : ℕ} (hA : 1 ≤ A) (hm : m < 2 ^ 24)
    (hN : 100 * A = m * 2 ^ k) :
    ∃ m2 k2 : ℕ, 1 ≤ m2 ∧ m2 < 2 ^ 24 ∧ A = m2 * 2 ^ k2 := by
  by_cases hA24 : A < 2 ^ 24
  · exact ⟨A, 0, hA, hA24, by ring⟩
  · push_neg at hA24
    have hk2 : 2 ≤ k := by
      by_contra hk
      push_neg at hk
      have h2k : (2:ℕ) ^ k ≤ 2 := by
        calc (2:ℕ) ^ k ≤ 2 ^ 1 := Nat.pow_le_pow_right (by norm_num) (by omega)
          _ = 2 := by norm_num
      have hcon : 100 * A < 100 * A := by
        calc 100 * A = m * 2 ^ k := hN
          _ ≤ m * 2 := Nat.mul_le_mul_left m h2k
          _ ≤ 2 ^ 24 * 2 := Nat.mul_le_mul_right 2 (le_of_lt hm)
          _ = 33554432 := by norm_num
          _ < 1677721600 := by norm_num
          _ = 100 * 2 ^ 24 := by norm_num
          _ ≤ 100 * A := Nat.mul_le_mul_left 100 hA24
      exact absurd hcon (lt_irrefl _)
    have hksplit : (2:ℕ) ^ k = 2 ^ (k - 2) * 4 := by
      rw [show k = (k - 2) + 2 by omega, pow_add]
      norm_num
    have h25 : 25 * A = m * 2 ^ (k - 2) := by
      have h4 : 4 * (25 * A) = 4 * (m * 2 ^ (k - 2)) := by
        calc 4 * (25 * A) = 100 * A := by ring
          _ = m * 2 ^ k := hN
          _ = m * (2 ^ (k - 2) * 4) := by rw [hksplit]
          _ = 4 * (m * 2 ^ (k - 2)) := by ring
      exact Nat.eq_of_mul_eq_mul_left (by norm_num) h4
    have hdvd : 25 ∣ m * 2 ^ (k - 2) := ⟨A, h25.symm⟩
    have hcop : Nat.Coprime 25 (2 ^ (k - 2)) :=
      Nat.Coprime.pow_right _ (by norm_num)
    have h25m : 25 ∣ m := hcop.dvd_of_dvd_mul_right hdvd
    obtain ⟨m1, hm1⟩ := h25m
    have hAeq : A = m1 * 2 ^ (k - 2) := by
      have h5 : 25 * A = 25 * (m1 * 2 ^ (k - 2)) := by
        calc 25 * A = m * 2 ^ (k - 2) := h25
          _ = 25 * m1 * 2 ^ (k - 2) := by rw [hm1]
          _ = 25 * (m1 * 2 ^ (k - 2)) := by ring
      exact Nat.eq_of_mul_eq_mul_left (by norm_num) h5
    have hm1pos : 1 ≤ m1 := by
      by_contra hc
      push_neg at hc
      have hz : m1 = 0 := by omega
      rw [hz, zero_mul] at hAeq
      omega
    exact ⟨m1, k - 2, hm1pos, by omega, hAeq⟩

theorem progressGrid_top (a : ℤ) (ha : 1 ≤ a)
    (hrep : ∃ m k : ℕ, m < 2 ^ 24 ∧ 100 * a = (m:ℤ) * 2 ^ k) :
    progressGrid a a = 100 := by
  obtain ⟨m, k, hm, hN⟩ := hrep
  have hAz : ((a.toNat : ℤ)) = a := Int.toNat_of_nonneg (by omega)
  have hNnat : 100 * a.toNat = m * 2 ^ k := by
    have hz : ((100 * a.toNat : ℕ) : ℤ) = ((m * 2 ^ k : ℕ) : ℤ) := by
      push_cast
      rw [hAz]
      exact hN
    exact_mod_cast hz
  have hA1 : 1 ≤ a.toNat := by omega
  have hm1 : 1 ≤ m := by
    by_contra hc
    push_neg at hc
    have hz : m = 0 := by omega
    rw [hz, zero_mul] at hNnat
    omega
  obtain ⟨m2, k2, hm21, hm224, hAeq⟩ := repr_of_repr100 hA1 hm hNnat
  have hcast : ((a.toNat : ℕ) : ℚ) = (a:ℚ) := by exact_mod_cast hAz
  have h1 : rndPos ((a:ℚ)) = (a:ℚ) := by
    have hx := rndPos_exact (m := m2) k2 hm21 hm224
    rw [show ((m2:ℚ)) * 2 ^ k2 = ((a.toNat : ℕ) : ℚ) by exact_mod_cast hAeq.symm,
      hcast] at hx
    exact hx
  have h2 : rndPos (100 * (a:ℚ)) = 100 * (a:ℚ) := by
    have hx := rndPos_exact (m := m) k hm1 hm
    rw [show ((m:ℚ)) * 2 ^ k = 100 * (a:ℚ) by exact_mod_cast hN.symm] at hx
    exact hx
  have ha0 : ((a:ℚ)) ≠ 0 := by
    have h : (1:ℚ) ≤ (a:ℚ) := by exact_mod_cast ha
    linarith
  unfold progressGrid
  rw [h1, h2, mul_div_assoc, div_self ha0, mul_one]
  have hx := rndPos_exact (m := 25) 2 (by norm_num) (by norm_num)
  rw [show ((25:ℕ):ℚ) * 2 ^ 2 = 100 by norm_num] at hx
  exact hx

theorem rndPos_intLit {m : ℕ} (h1 : 1 ≤ m) (h2 : m < 2 ^ 24) : rndPos ((m:ℚ)) = (m:ℚ) := by
  have hx := rndPos_exact (m := m) 0 h1 h2
  rwa [pow_zero, mul_one] at hx

theorem rndPos_1073745600 : rndPos (1073745600:ℚ) = 1073745664 := by
  rw [rndPos_eval (E := 30) (by norm_num) (by norm_num) (by norm_num)]
  rw [show ((1073745600:ℚ) * 2 ^ ((23:ℤ) - 30)) = 8388637 + 1/2 by norm_num]
  rw [rhe_def]
  norm_num

theorem rndPos_quot10737456 : rndPos ((1073745664:ℚ) / 10737456) = 13107201 / 131072 := by
  rw [rndPos_eval (E := 6) (by norm_num) (by norm_num) (by norm_num)]
  rw [rhe_def]
  norm_num

theorem progressGrid_4_1 : progressGrid 4 1 = 25 := by
  unfold progressGrid
  push_cast
  have r1 : rndPos (1:ℚ) = 1 := by
    exact_mod_cast rndPos_intLit (m := 1) (by norm_num) (by norm_num)
  have r4 : rndPos (4:ℚ) = 4 := by
    exact_mod_cast rndPos_intLit (m := 4) (by norm_num) (by norm_num)
  have r100 : rndPos (100:ℚ) = 100 := by
    exact_mod_cast rndPos_intLit (m := 100) (by norm_num) (by norm_num)
  rw [r1, r4, mul_one, r100, show ((100:ℚ)/4) = 25 by norm_num]
  exact_mod_cast rndPos_intLit (m := 25) (by norm_num) (by norm_num)

theorem progressGrid_big : progressGrid 10737456 10737456 = 13107201 / 131072 := by
  unfold progressGrid
  push_cast
  have rn : rndPos (10737456:ℚ) = 10737456 := by
    exact_mod_cast rndPos_intLit (m := 10737456) (by norm_num) (by norm_num)
  rw [rn, show (100 * (10737456:ℚ)) = 1073745600 by norm_num, rndPos_1073745600]
  exact rndPos_quot10737456

theorem experimentProgress_ok (repo : AssignmentsRepo) (eid uid a c : ℤ)
    (h1 : repo.CountUserAssignment eid uid = .ok a)
    (h2 : repo.CountCompleteUserAssignment eid uid = .ok c)
    (ha : ¬ a = 0) :
    (experimentProgress repo eid uid).1 =
      .ok (f32div (f32mul (.finite 100) (f32ofInt c)) (f32ofInt a)) := by
  unfold experimentProgress
  rw [h1, h2]
  simp [ha]

/- ======================= fixtures for witnesses ======================= -/

/-- Sample experiment entity. -/
def expSample : Experiment := { ID := 1, Name := "exp", Description := "desc" }

/-- Request whose collaborators all succeed. -/
def reqOk : Request :=
  { userID := .ok 7, experimentIdParam := .ok 1, body := .ok "body" }

/-- Request whose identity collaborator fails. -/
def reqNoAuth : Request :=
  { userID := .error (.generic "no session"), experimentIdParam := .ok 1, body := .ok "body" }

/-- Request whose body cannot be read. -/
def reqBadBody : Request :=
  { userID := .ok 7, experimentIdParam := .ok 1, body := .error "read fault" }

/-- Body decoder that accepts any body. -/
def parseAny : String → Except String ExperimentReq :=
  fun _ => .ok { Name := "n", Description := "d" }

/-- Body decoder that rejects any body, as json.Unmarshal does on malformed
input. -/
def parseNone : String → Except String ExperimentReq :=
  fun _ => .error "invalid character"

/-- Experiments repository that resolves every id to the sample experiment. -/
def repoSample : ExperimentsRepo :=
  { GetByID := fun _ => .ok (some expSample), GetAll := .ok [expSample],
    Create := fun _ => .ok (), Update := fun _ => .ok () }

/-- Experiments repository with no experiments at all. -/
def repoEmpty : ExperimentsRepo :=
  { GetByID := fun _ => .ok none, GetAll := .ok [],
    Create := fun _ => .ok (), Update := fun _ => .ok () }

/-- Assignments repository with constant counts. -/
def countsRepo (allCount completeCount : ℤ) : AssignmentsRepo :=
  { CountUserAssignment := fun _ _ => .ok allCount,
    CountCompleteUserAssignment := fun _ _ => .ok completeCount }

/-- Assignments repository whose first counting query faults. -/
def countsFaultRepo : AssignmentsRepo :=
  { CountUserAssignment := fun _ _ => .error "db down",
    CountCompleteUserAssignment := fun _ _ => .ok 0 }

/- ======================= claims ======================= -/

/-- C1: newResponse cannot fail on any payload: an absent payload yields the
envelope with status 204 and no data, and any present payload yields status
200 with exactly that payload attached as data. -/
theorem newResponse_status_invariant :
    (newResponse none).Status = 204 ∧ (newResponse none).Data = none ∧
    ∀ p : Payload, (newResponse (some p)).Status = 200 ∧
      (newResponse (some p)).Data = some p :=
  ⟨rfl, rfl, fun _ => ⟨rfl, rfl⟩⟩

/-- C2 counterexample: CreateExperiment never resolves caller identity; on a
request whose identity collaborator fails it still parses the body and
persists a new experiment, returning a success envelope. -/
theorem createExperiment_skips_auth :
    reqNoAuth.userID = .error (.generic "no session") ∧
    (CreateExperiment repoSample parseAny reqNoAuth).1 =
      .ok (NewExperimentResponse { ID := 0, Name := "n", Description := "d" } (.finite 0)) ∧
    (CreateExperiment repoSample parseAny reqNoAuth).2 = [.create] :=
  ⟨rfl, rfl, rfl⟩

/-- C2 amended: GetExperimentDetails, GetExperiments and UpdateExperiment
resolve caller identity first and short-circuit to that failure before any
parsing or persistence (no repository effect is performed); CreateExperiment
performs no identity resolution at all and behaves identically whatever the
identity outcome. -/
theorem handlers_authenticate_first (repo : ExperimentsRepo) (arepo : AssignmentsRepo)
    (parse : String → Except String ExperimentReq) (r : Request) (e : HandlerErr)
    (h : r.userID = .error e) :
    GetExperimentDetails repo arepo r = (.error e, []) ∧
    GetExperiments repo arepo r = (.error e, []) ∧
    UpdateExperiment repo arepo parse r = (.error e, []) ∧
    ∀ u : Except HandlerErr ℤ,
      CreateExperiment repo parse { r with userID := u } = CreateExperiment repo parse r := by
  refine ⟨?_, ?_, ?_, fun u => rfl⟩
  · unfold GetExperimentDetails
    rw [h]
  · unfold GetExperiments
    rw [h]
  · unfold UpdateExperiment
    rw [h]

/-- C2 amended witness at a concrete request with a failed identity. -/
theorem handlers_authenticate_first_witness :
    GetExperimentDetails repoSample (countsRepo 0 0) reqNoAuth =
      (.error (.generic "no session"), []) :=
  (handlers_authenticate_first repoSample (countsRepo 0 0) parseAny reqNoAuth
    (.generic "no session") rfl).1

/-- C3: when the countAll query returns 0 and the countComplete query
succeeds with any value, experimentProgress returns exactly the finite
float 0 with no error (no fault, no NaN, no infinity), regardless of
countComplete. -/
theorem experimentProgress_zero_guard (repo : AssignmentsRepo) (eid uid c : ℤ)
    (h1 : repo.CountUserAssignment eid uid = .ok 0)
    (h2 : repo.CountCompleteUserAssignment eid uid = .ok c) :
    (experimentProgress repo eid uid).1 = .ok (.finite 0) := by
  unfold experimentProgress
  rw [h1, h2]
  simp

/-- C3 witness: zero assignments with a nonzero complete count still yields
the finite zero. -/
theorem experimentProgress_zero_guard_witness :
    (experimentProgress (countsRepo 0 5) 1 1).1 = .ok (.finite 0) :=
  experimentProgress_zero_guard (countsRepo 0 5) 1 1 5 rfl rfl

/-- C4: with both counts succeeding and countAll nonzero, experimentProgress
returns, without fault, exactly the float32 evaluation of
100 * countComplete / countAll: conversion, multiplication and division are
each rounded to binary32 and no further rounding is applied to the result. -/
theorem experimentProgress_float_formula (repo : AssignmentsRepo) (eid uid a c : ℤ)
    (h1 : repo.CountUserAssignment eid uid = .ok a)
    (h2 : repo.CountCompleteUserAssignment eid uid = .ok c)
    (ha : ¬ a = 0) :
    (experimentProgress repo eid uid).1 =
      .ok (f32div (f32mul (.finite 100) (f32ofInt c)) (f32ofInt a)) :=
  experimentProgress_ok repo eid uid a c h1 h2 ha

/-- C4 witness: 4 assignments with 1 answered gives exactly 25.0. -/
theorem experimentProgress_float_formula_witness :
    (experimentProgress (countsRepo 4 1) 1 1).1 = .ok (.finite 25) := by
  rw [experimentProgress_float_formula (countsRepo 4 1) 1 1 4 1 rfl rfl (by norm_num),
    f32_progress_eq 4 1 (by norm_num) (by norm_num) (by norm_num) (by norm_num),
    progressGrid_4_1]

/-- C5: a fault from either counting collaborator call is wrapped with the
contextual prefix and returned as a non-nil error, which the dispatcher
renders as Internal (500); a fault is never silently turned into a zero
progress without error. -/
theorem experimentProgress_fault_wrapped (repo : AssignmentsRepo) (eid uid : ℤ) :
    (∀ msg, repo.CountUserAssignment eid uid = .error msg →
      (experimentProgress repo eid uid).1 =
        .error ("Error count of assigments from the DB: " ++ msg) ∧
      errStatus (.generic ("Error count of assigments from the DB: " ++ msg)) = 500) ∧
    (∀ a msg, repo.CountUserAssignment eid uid = .ok a →
      repo.CountCompleteUserAssignment eid uid = .error msg →
      (experimentProgress repo eid uid).1 =
        .error ("Error count of complete assigments from the DB: " ++ msg) ∧
      errStatus (.generic ("Error count of complete assigments from the DB: " ++ msg)) = 500) := by
  constructor
  · intro msg h
    unfold experimentProgress
    rw [h]
    exact ⟨rfl, rfl⟩
  · intro a msg h1 h2
    unfold experimentProgress
    rw [h1, h2]
    exact ⟨rfl, rfl⟩

/-- C5 witness: a failing countAll query yields the wrapped error. -/
theorem experimentProgress_fault_wrapped_witness :
    (experimentProgress countsFaultRepo 1 1).1 =
      .error ("Error count of assigments from the DB: " ++ "db down") :=
  ((experimentProgress_fault_wrapped countsFaultRepo 1 1).1 "db down" rfl).1

/-- C6: rendering a typed HTTP error falls back, in order, to the title,
then the standard text of the status code, then the standard text for 500
(which is "Internal Server Error"). -/
theorem httpError_message_fallback (e : httpError) :
    (e.Title ≠ "" → e.Error = e.Title) ∧
    (e.Title = "" → statusText e.Status ≠ "" → e.Error = statusText e.Status) ∧
    (e.Title = "" → statusText e.Status = "" →
      e.Error = statusText 500 ∧ statusText 500 = "Internal Server Error") := by
  refine ⟨fun h => ?_, fun h1 h2 => ?_, fun h1 h2 => ?_⟩
  · unfold httpError.Error
    rw [if_pos h]
  · unfold httpError.Error
    rw [if_neg (by simp [h1]), if_pos h2]
  · unfold httpError.Error
    rw [if_neg (by simp [h1]), if_neg (by simp [h2])]
    exact ⟨rfl, rfl⟩

/-- C6 witness: empty title with status 404 renders "Not Found"; empty title
with the unknown status 999 renders "Internal Server Error". -/
theorem httpError_message_fallback_witness :
    (NewHTTPError 404 []).Error = "Not Found" ∧
    (NewHTTPError 999 []).Error = "Internal Server Error" := by
  constructor
  · exact ((httpError_message_fallback (NewHTTPError 404 [])).2.1 rfl (by decide)).trans rfl
  · exact (((httpError_message_fallback (NewHTTPError 999 [])).2.2 rfl rfl).1).trans rfl

/-- C7: with identity and parameter resolved, a lookup that succeeds but
returns no entity makes GetExperimentDetails fail with the typed error of
status 404 and title exactly "no experiment found", while a lookup fault
propagates as a plain error that the dispatcher renders as Internal (500). -/
theorem getExperimentDetails_not_found (repo : ExperimentsRepo) (arepo : AssignmentsRepo)
    (r : Request) (uid eid : ℤ)
    (hu : r.userID = .ok uid) (hp : r.experimentIdParam = .ok eid) :
    (repo.GetByID eid = .ok none →
      (GetExperimentDetails repo arepo r).1 =
        .error (.http (NewHTTPError 404 ["no experiment found"])) ∧
      (NewHTTPError 404 ["no experiment found"]).Status = 404 ∧
      (NewHTTPError 404 ["no experiment found"]).Title = "no experiment found") ∧
    (∀ msg, repo.GetByID eid = .error msg →
      (GetExperimentDetails repo arepo r).1 = .error (.generic msg) ∧
      errStatus (.generic msg) = 500) := by
  constructor
  · intro h
    refine ⟨?_, rfl, by decide⟩
    unfold GetExperimentDetails
    simp only [hu, hp, h]
  · intro msg h
    refine ⟨?_, rfl⟩
    unfold GetExperimentDetails
    simp only [hu, hp, h]

/-- C7 witness: a repository with no entities produces the 404 failure. -/
theorem getExperimentDetails_not_found_witness :
    (GetExperimentDetails repoEmpty (countsRepo 0 0) reqOk).1 =
      .error (.http (NewHTTPError 404 ["no experiment found"])) :=
  ((getExperimentDetails_not_found repoEmpty (countsRepo 0 0) reqOk 7 1 rfl rfl).1 rfl).1

/-- C8: with an existing experiment resolved, a body that cannot be read, or
cannot be parsed, makes UpdateExperiment fail with status 400 and the
repository Update operation is never invoked, leaving the stored entity
unchanged. -/
theorem updateExperiment_bad_body (repo : ExperimentsRepo) (arepo : AssignmentsRepo)
    (parse : String → Except String ExperimentReq) (r : Request) (uid eid : ℤ)
    (ex : Experiment)
    (hu : r.userID = .ok uid) (hp : r.experimentIdParam = .ok eid)
    (hrepo : repo.GetByID eid = .ok (some ex)) :
    (∀ msg, r.body = .error msg →
      (UpdateExperiment repo arepo parse r).1 = .error (.http (NewHTTPError 400 [msg])) ∧
      (NewHTTPError 400 [msg]).Status = 400 ∧
      Effect.update ∉ (UpdateExperiment repo arepo parse r).2) ∧
    (∀ b msg, r.body = .ok b → parse b = .error msg →
      (UpdateExperiment repo arepo parse r).1 = .error (.http (NewHTTPError 400 [msg])) ∧
      (NewHTTPError 400 [msg]).Status = 400 ∧
      Effect.update ∉ (UpdateExperiment repo arepo parse r).2) := by
  constructor
  · intro msg h
    unfold UpdateExperiment
    simp only [hu, hp, hrepo, h]
    exact ⟨trivial, rfl, by simp⟩
  · intro b msg hb hparse
    unfold UpdateExperiment
    simp only [hu, hp, hrepo, hb, hparse]
    exact ⟨trivial, rfl, by simp⟩

/-- C8 witness: an unreadable body produces the 400 failure with no Update
call. -/
theorem updateExperiment_bad_body_witness :
    (UpdateExperiment repoSample (countsRepo 0 0) parseAny reqBadBody).1 =
      .error (.http (NewHTTPError 400 ["read fault"])) ∧
    Effect.update ∉ (UpdateExperiment repoSample (countsRepo 0 0) parseAny reqBadBody).2 := by
  have h := ((updateExperiment_bad_body repoSample (countsRepo 0 0) parseAny reqBadBody 7 1
    expSample rfl rfl rfl).1 "read fault" rfl)
  exact ⟨h.1, h.2.2⟩

/-- C9 counterexample: with both counting calls succeeding and
countAll = countComplete = 10737456 > 0, the float32 progress returned is
13107201/131072, one binary32 ulp above 100, so it is not exactly 100.0. -/
theorem experimentProgress_top_not_exact :
    (countsRepo 10737456 10737456).CountUserAssignment 1 1 = .ok 10737456 ∧
    (countsRepo 10737456 10737456).CountCompleteUserAssignment 1 1 = .ok 10737456 ∧
    (experimentProgress (countsRepo 10737456 10737456) 1 1).1 =
      .ok (.finite (13107201 / 131072)) ∧
    (13107201 / 131072 : ℚ) ≠ 100 := by
  refine ⟨rfl, rfl, ?_, by norm_num⟩
  rw [experimentProgress_ok (countsRepo 10737456 10737456) 1 1 10737456 10737456 rfl rfl
      (by norm_num),
    f32_progress_eq 10737456 10737456 (by norm_num) (by norm_num) le_rfl (by norm_num),
    progressGrid_big]

/-- C9 amended: for a fixed countAll with 0 < countAll < 2^63 (the Go int
range), the progress returned by experimentProgress is a finite float,
non-decreasing as countComplete grows, and at countComplete = countAll it
equals exactly 100.0 whenever 100 * countAll is exactly representable in
binary32 (witnessed as m * 2^k with mantissa m below 2^24); every countAll
up to 671088 satisfies that condition (last conjunct), while for larger
countAll the endpoint value can differ from 100.0 by one ulp. -/
theorem experimentProgress_monotone (repo repo2 : AssignmentsRepo) (eid uid a c c' : ℤ)
    (h1 : repo.CountUserAssignment eid uid = .ok a)
    (h2 : repo.CountCompleteUserAssignment eid uid = .ok c)
    (h1b : repo2.CountUserAssignment eid uid = .ok a)
    (h2b : repo2.CountCompleteUserAssignment eid uid = .ok c')
    (ha : 1 ≤ a) (hbound : a < 2 ^ 63) (hc : 0 ≤ c) (hcc : c ≤ c') (hca : c' ≤ a) :
    ((experimentProgress repo eid uid).1 = .ok (.finite (progressGrid a c)) ∧
     (experimentProgress repo2 eid uid).1 = .ok (.finite (progressGrid a c')) ∧
     progressGrid a c ≤ progressGrid a c') ∧
    (c' = a → (∃ m k : ℕ, m < 2 ^ 24 ∧ 100 * a = (m:ℤ) * 2 ^ k) →
      (experimentProgress repo2 eid uid).1 = .ok (.finite 100)) ∧
    (a ≤ 671088 → ∃ m k : ℕ, m < 2 ^ 24 ∧ 100 * a = (m:ℤ) * 2 ^ k) := by
  have e1 : (experimentProgress repo eid uid).1 = .ok (.finite (progressGrid a c)) := by
    rw [experimentProgress_ok repo eid uid a c h1 h2 (by omega),
      f32_progress_eq a c ha hc (le_trans hcc hca) hbound]
  have e2 : (experimentProgress repo2 eid uid).1 = .ok (.finite (progressGrid a c')) := by
    rw [experimentProgress_ok repo2 eid uid a c' h1b h2b (by omega),
      f32_progress_eq a c' ha (le_trans hc hcc) hca hbound]
  refine ⟨⟨e1, e2, progressGrid_mono a c c' ha hc hcc⟩,
    fun htop hrep => ?_, fun hsmall => ?_⟩
  · rw [e2, htop, progressGrid_top a ha hrep]
  · have hAz : ((a.toNat : ℤ)) = a := Int.toNat_of_nonneg (by omega)
    refine ⟨25 * a.toNat, 2, by omega, ?_⟩
    push_cast
    rw [hAz]
    ring

/-- C9 amended witness: countAll 4, countComplete 1 then 4: the progress is
25 then exactly 100, and 25 is not larger than 100. -/
theorem experimentProgress_monotone_witness :
    (experimentProgress (countsRepo 4 1) 1 1).1 = .ok (.finite (progressGrid 4 1)) ∧
    (experimentProgress (countsRepo 4 4) 1 1).1 = .ok (.finite 100) ∧
    progressGrid 4 1 ≤ progressGrid 4 4 := by
  have h := experimentProgress_monotone (countsRepo 4 1) (countsRepo 4 4) 1 1 4 1 4
    rfl rfl rfl rfl (by norm_num) (by norm_num) (by norm_num) (by norm_num) (by norm_num)
  exact ⟨h.1.1, h.2.1 rfl (h.2.2 (by norm_num)), h.1.2.2⟩

/-- C10: when the listing collaborator returns zero experiments (and
identity resolves), GetExperiments returns the 200 envelope whose data is a
present empty list, never the 204 no-data envelope; NewExperimentsResponse
wraps a present (non-nil) list for every progress list. -/
theorem getExperiments_empty_list (repo : ExperimentsRepo) (arepo : AssignmentsRepo)
    (r : Request) (uid : ℤ)
    (hu : r.userID = .ok uid) (hall : repo.GetAll = .ok []) :
    (GetExperiments repo arepo r).1 =
      .ok { Status := 200, Data := some (.experiments []), Errors := [] } ∧
    ∀ ps : List F32, NewExperimentsResponse [] ps =
      { Status := 200, Data := some (.experiments []), Errors := [] } := by
  constructor
  · unfold GetExperiments
    simp only [hu, hall]
    rfl
  · intro ps
    rfl

/-- C10 witness: the empty repository yields the 200 envelope with an empty
array as data. -/
theorem getExperiments_empty_list_witness :
    (GetExperiments repoEmpty (countsRepo 0 0) reqOk).1 =
      .ok { Status := 200, Data := some (.experiments []), Errors := [] } :=
  (getExperiments_empty_list repoEmpty (countsRepo 0 0) reqOk 7 rfl rfl).1
